import Mathlib

/-!
# Verification of the krida Game-of-Life simulation engine

Shallow embedding of `src/game.rs` (the canonical variant of the engine;
`src/main.rs` contains a near-duplicate of the same grid logic).  Grids are
`List (List Bool)` mirroring `Vec<Vec<bool>>`; `Duration` values are natural
numbers of milliseconds; `usize` arithmetic that can wrap is modelled with
explicit `% 2 ^ 64`.
-/

namespace Krida

/-- `GRID_WIDTH` from game.rs. -/
def GRID_WIDTH : Nat := 120

/-- `GRID_HEIGHT` from game.rs. -/
def GRID_HEIGHT : Nat := 90

/-- `DEFAULT_UPDATE_DELAY_MILISECONDS` from game.rs. -/
def DEFAULT_UPDATE_DELAY_MILISECONDS : Nat := 100

/-- The modulus of Rust's 64-bit `usize`. -/
def USIZE_MOD : Nat := 2 ^ 64

/-- `x.wrapping_sub(1)` on a 64-bit `usize` (value assumed `< USIZE_MOD`). -/
def wrapping_sub1 (x : Nat) : Nat := (x + (USIZE_MOD - 1)) % USIZE_MOD

/-- Reading `grid[i][j]` (row `i`, column `j`).  Out-of-range reads return
`false` here; the checked variant `getCell?` below models the panic of Rust
indexing, and the two are proved to agree on well-formed grids at in-bounds
indices. -/
def getCell (g : List (List Bool)) (i j : Nat) : Bool :=
  (g.getD i []).getD j false

/-- Checked variant of `getCell`: `none` exactly when Rust's `grid[i][j]`
would panic. -/
def getCell? (g : List (List Bool)) (i j : Nat) : Option Bool :=
  (g.get? i).bind fun row => row.get? j

/-- Writing `grid[y][x] = v` (no-op out of range; every use in the source is
either bounds-guarded or at fixed small indices). -/
def setCell (g : List (List Bool)) (y x : Nat) (v : Bool) : List (List Bool) :=
  g.set y ((g.getD y []).set x v)

/-- `vec![vec![false; GRID_WIDTH]; GRID_HEIGHT]`. -/
def deadGrid : List (List Bool) :=
  List.replicate GRID_HEIGHT (List.replicate GRID_WIDTH false)

/-- A grid of dimensions `GRID_HEIGHT × GRID_WIDTH`, the shape established at
construction and preserved by every operation. -/
def wf (g : List (List Bool)) : Prop :=
  g.length = GRID_HEIGHT ∧ ∀ row ∈ g, row.length = GRID_WIDTH

instance : DecidablePred wf := fun g => by unfold wf; infer_instance

/-- `MainState` from game.rs (`update_delay` and `change_update_delay` in
milliseconds). -/
structure MainState where
  grid : List (List Bool)
  next_grid : List (List Bool)
  paused : Bool
  update_delay : Nat
  change_update_delay : Nat

attribute [ext] MainState

/-- `MainState::new` from game.rs: all-dead grid and buffer, paused, default
delays, then the five glider seed cells `grid[1][2]`, `grid[2][3]`,
`grid[3][1]`, `grid[3][2]`, `grid[3][3]` set alive. -/
def MainState.new : MainState :=
  { grid := setCell (setCell (setCell (setCell (setCell deadGrid 1 2 true)
      2 3 true) 3 1 true) 3 2 true) 3 3 true
    next_grid := deadGrid
    paused := true
    update_delay := DEFAULT_UPDATE_DELAY_MILISECONDS
    change_update_delay := DEFAULT_UPDATE_DELAY_MILISECONDS }

/-- `MainState::live_neighbor_count` from game.rs: iterate over
`ys = [y.wrapping_sub(1), y, y + 1]` and `xs = [x.wrapping_sub(1), x, x + 1]`,
skipping rows `≥ GRID_HEIGHT`, columns `≥ GRID_WIDTH` and the cell itself,
counting live cells. -/
def live_neighbor_count (g : List (List Bool)) (x y : Nat) : Nat :=
  let xs := [wrapping_sub1 x, x, x + 1]
  let ys := [wrapping_sub1 y, y, y + 1]
  ys.foldl (fun count i =>
    if GRID_HEIGHT ≤ i then count
    else xs.foldl (fun count j =>
      if GRID_WIDTH ≤ j ∨ (i = y ∧ j = x) then count
      else if getCell g i j then count + 1 else count) count) 0

/-- The `match (self.grid[y][x], live_neighbors)` rule inside
`MainState::update_grid`. -/
def newCell : Bool → Nat → Bool
  | true, 2 => true
  | true, 3 => true
  | false, 3 => true
  | _, _ => false

/-- The double loop of `MainState::update_grid`: the contents written into
`next_grid` (every position `(y, x)` with `y < GRID_HEIGHT`,
`x < GRID_WIDTH` is written, so the buffer's previous contents are fully
overwritten). -/
def update_grid_pass (g : List (List Bool)) : List (List Bool) :=
  (List.range GRID_HEIGHT).map fun y =>
    (List.range GRID_WIDTH).map fun x =>
      newCell (getCell g y x) (live_neighbor_count g x y)

/-- `MainState::update_grid` from game.rs: compute the pass into the buffer,
then `std::mem::swap(&mut self.grid, &mut self.next_grid)`. -/
def MainState.update_grid (s : MainState) : MainState :=
  { s with grid := update_grid_pass s.grid, next_grid := s.grid }

/-- `MainState::toggle_pause`. -/
def MainState.toggle_pause (s : MainState) : MainState :=
  { s with paused := !s.paused }

/-- `MainState::toggle_cell`: flip `grid[y][x]` if `x < GRID_WIDTH` and
`y < GRID_HEIGHT`, otherwise do nothing. -/
def MainState.toggle_cell (s : MainState) (x y : Nat) : MainState :=
  if x < GRID_WIDTH ∧ y < GRID_HEIGHT then
    { s with grid := setCell s.grid y x (!getCell s.grid y x) }
  else s

/-- `MainState::randomize`: every cell is overwritten with an independent
random draw; the draws are supplied as an oracle `f`. -/
def MainState.randomize (s : MainState) (f : Nat → Nat → Bool) : MainState :=
  { s with grid := (List.range GRID_HEIGHT).map fun y =>
      (List.range GRID_WIDTH).map fun x => f y x }

/-- `MainState::randomize_sparse`: as `randomize`, with the oracle giving the
outcome of each `random::<f32>() < 0.1` draw. -/
def MainState.randomize_sparse (s : MainState) (f : Nat → Nat → Bool) : MainState :=
  { s with grid := (List.range GRID_HEIGHT).map fun y =>
      (List.range GRID_WIDTH).map fun x => f y x }

/-- `MainState::decrease_update_delay_step`. -/
def MainState.decrease_update_delay_step (s : MainState) : MainState :=
  if 10 < s.change_update_delay then
    { s with change_update_delay := s.change_update_delay - 10 }
  else s

/-- `MainState::increase_update_delay_step`. -/
def MainState.increase_update_delay_step (s : MainState) : MainState :=
  if s.change_update_delay < 100 then
    { s with change_update_delay := s.change_update_delay + 10 }
  else s

/-- `MainState::increase_update_delay`. -/
def MainState.increase_update_delay (s : MainState) : MainState :=
  { s with update_delay := s.update_delay + s.change_update_delay }

/-- `MainState::decrease_update_delay`. -/
def MainState.decrease_update_delay (s : MainState) : MainState :=
  if DEFAULT_UPDATE_DELAY_MILISECONDS < s.update_delay ∧
      DEFAULT_UPDATE_DELAY_MILISECONDS < s.update_delay - s.change_update_delay then
    { s with update_delay := s.update_delay - s.change_update_delay }
  else s

/-- `MainState::reset_update_delay`. -/
def MainState.reset_update_delay (s : MainState) : MainState :=
  { s with update_delay := DEFAULT_UPDATE_DELAY_MILISECONDS
           change_update_delay := DEFAULT_UPDATE_DELAY_MILISECONDS }

/-- The `KeyCode::C` handler in `key_down_event`:
`self.grid = vec![vec![false; GRID_WIDTH]; GRID_HEIGHT]`. -/
def MainState.clear (s : MainState) : MainState :=
  { s with grid := deadGrid }

/-- `EventHandler::update`: advance one generation unless paused (the
`timer::sleep` has no effect on the state). -/
def MainState.step (s : MainState) : MainState :=
  if s.paused then s else s.update_grid

/-- One engine operation, as reachable from the event loop of game.rs:
the per-frame update plus every key/mouse handler that mutates the state.
Randomization carries its random draws as an oracle. -/
inductive Op
  | update
  | togglePause
  | clear
  | randomize (f : Nat → Nat → Bool)
  | randomizeSparse (f : Nat → Nat → Bool)
  | toggleCell (x y : Nat)
  | increaseDelay
  | decreaseDelay
  | resetDelay
  | increaseStep
  | decreaseStep

/-- Dispatch of one operation. -/
def applyOp (s : MainState) : Op → MainState
  | Op.update => s.step
  | Op.togglePause => s.toggle_pause
  | Op.clear => s.clear
  | Op.randomize f => s.randomize f
  | Op.randomizeSparse f => s.randomize_sparse f
  | Op.toggleCell x y => s.toggle_cell x y
  | Op.increaseDelay => s.increase_update_delay
  | Op.decreaseDelay => s.decrease_update_delay
  | Op.resetDelay => s.reset_update_delay
  | Op.increaseStep => s.increase_update_delay_step
  | Op.decreaseStep => s.decrease_update_delay_step

/-- A sequence of engine operations applied in order. -/
def applyOps (s : MainState) (ops : List Op) : MainState :=
  ops.foldl applyOp s

/-! ## Basic facts about the timing parameters -/

@[simp] theorem update_delay_mk (g ng : List (List Bool)) (p : Bool) (ud c : Nat) :
    (MainState.mk g ng p ud c).update_delay = ud := rfl

@[simp] theorem change_update_delay_mk (g ng : List (List Bool)) (p : Bool) (ud c : Nat) :
    (MainState.mk g ng p ud c).change_update_delay = c := rfl

@[simp] theorem paused_mk (g ng : List (List Bool)) (p : Bool) (ud c : Nat) :
    (MainState.mk g ng p ud c).paused = p := rfl

@[simp] theorem grid_mk (g ng : List (List Bool)) (p : Bool) (ud c : Nat) :
    (MainState.mk g ng p ud c).grid = g := rfl

@[simp] theorem next_grid_mk (g ng : List (List Bool)) (p : Bool) (ud c : Nat) :
    (MainState.mk g ng p ud c).next_grid = ng := rfl

theorem update_delay_floor_applyOp (s : MainState) (op : Op)
    (h : 100 ≤ s.update_delay) : 100 ≤ (applyOp s op).update_delay := by
  cases op <;>
    simp only [applyOp, MainState.step, MainState.update_grid, MainState.toggle_pause,
      MainState.clear, MainState.randomize, MainState.randomize_sparse, MainState.toggle_cell,
      MainState.increase_update_delay, MainState.decrease_update_delay,
      MainState.reset_update_delay, MainState.increase_update_delay_step,
      MainState.decrease_update_delay_step, DEFAULT_UPDATE_DELAY_MILISECONDS] <;>
    (try split_ifs) <;>
    (try simp only [update_delay_mk, change_update_delay_mk]) <;>
    omega

/-- The auxiliary invariant on `change_update_delay`: it is a multiple of
10 ms in `[10 ms, 100 ms]`. -/
def StepInv (s : MainState) : Prop :=
  10 ≤ s.change_update_delay ∧ s.change_update_delay ≤ 100 ∧ 10 ∣ s.change_update_delay

theorem stepInv_applyOp (s : MainState) (op : Op)
    (h : StepInv s) : StepInv (applyOp s op) := by
  obtain ⟨h1, h2, h3⟩ := h
  cases op <;>
    simp only [applyOp, MainState.step, MainState.update_grid, MainState.toggle_pause,
      MainState.clear, MainState.randomize, MainState.randomize_sparse, MainState.toggle_cell,
      MainState.increase_update_delay, MainState.decrease_update_delay,
      MainState.reset_update_delay, MainState.increase_update_delay_step,
      MainState.decrease_update_delay_step, DEFAULT_UPDATE_DELAY_MILISECONDS, StepInv] <;>
    (try split_ifs) <;>
    (try simp only [update_delay_mk, change_update_delay_mk]) <;>
    omega

theorem invariant_applyOps (P : MainState → Prop)
    (hP : ∀ s op, P s → P (applyOp s op)) :
    ∀ (ops : List Op) (s : MainState), P s → P (applyOps s ops) := by
  intro ops
  induction ops with
  | nil => intro s h; exact h
  | cons op ops ih =>
      intro s h
      exact ih (applyOp s op) (hP s op h)

/-- C4: the 100 ms floor on `update_delay`: it starts at 100 ms, in any
reachable state a decrease that would land at or below 100 ms is a state-
preserving no-op, and no operation sequence drives the delay below 100 ms. -/
theorem claim_C4_update_delay_floor :
    MainState.new.update_delay = 100 ∧
    (∀ ops : List Op,
      (applyOps MainState.new ops).update_delay
          - (applyOps MainState.new ops).change_update_delay ≤ 100 →
      applyOp (applyOps MainState.new ops) Op.decreaseDelay = applyOps MainState.new ops) ∧
    (∀ ops : List Op, 100 ≤ (applyOps MainState.new ops).update_delay) := by
  refine ⟨rfl, ?_, ?_⟩
  · intro ops h
    simp only [applyOp, MainState.decrease_update_delay, DEFAULT_UPDATE_DELAY_MILISECONDS]
    rw [if_neg]
    omega
  · intro ops
    exact invariant_applyOps (fun s => 100 ≤ s.update_delay)
      update_delay_floor_applyOp ops MainState.new (by decide)

theorem claim_C4_witness :
    (applyOps MainState.new []).update_delay
        - (applyOps MainState.new []).change_update_delay ≤ 100 ∧
    applyOp (applyOps MainState.new []) Op.decreaseDelay = applyOps MainState.new [] :=
  ⟨by decide, claim_C4_update_delay_floor.2.1 [] (by decide)⟩

/-- C5: `change_update_delay` (the delay step) stays in `[10 ms, 100 ms]` in
every reachable state, moves by exactly 10 ms per non-boundary call, and the
boundary calls are no-ops. -/
theorem claim_C5_delay_step_clamped :
    (∀ ops : List Op, 10 ≤ (applyOps MainState.new ops).change_update_delay ∧
      (applyOps MainState.new ops).change_update_delay ≤ 100) ∧
    (∀ s : MainState, s.change_update_delay < 100 →
      (applyOp s Op.increaseStep).change_update_delay = s.change_update_delay + 10) ∧
    (∀ s : MainState, 10 < s.change_update_delay →
      (applyOp s Op.decreaseStep).change_update_delay = s.change_update_delay - 10) ∧
    (∀ s : MainState, s.change_update_delay = 100 → applyOp s Op.increaseStep = s) ∧
    (∀ s : MainState, s.change_update_delay = 10 → applyOp s Op.decreaseStep = s) := by
  refine ⟨?_, ?_, ?_, ?_, ?_⟩
  · intro ops
    have h := invariant_applyOps StepInv stepInv_applyOp ops MainState.new
      (by refine ⟨by decide, by decide, by decide⟩)
    exact ⟨h.1, h.2.1⟩
  · intro s h
    simp only [applyOp, MainState.increase_update_delay_step]
    rw [if_pos h]
  · intro s h
    simp only [applyOp, MainState.decrease_update_delay_step]
    rw [if_pos h]
  · intro s h
    simp only [applyOp, MainState.increase_update_delay_step]
    rw [if_neg (by omega)]
  · intro s h
    simp only [applyOp, MainState.decrease_update_delay_step]
    rw [if_neg (by omega)]

theorem claim_C5_witness :
    ({ MainState.new with change_update_delay := 50 } : MainState).change_update_delay < 100 ∧
    (applyOp { MainState.new with change_update_delay := 50 } Op.increaseStep).change_update_delay
      = ({ MainState.new with change_update_delay := 50 } : MainState).change_update_delay + 10 ∧
    applyOp { MainState.new with change_update_delay := 10 } Op.decreaseStep
      = { MainState.new with change_update_delay := 10 } :=
  ⟨by decide,
   claim_C5_delay_step_clamped.2.1 { MainState.new with change_update_delay := 50 } (by decide),
   claim_C5_delay_step_clamped.2.2.2.2 { MainState.new with change_update_delay := 10 } (by decide)⟩

/-- C9: increasing the update delay is unconditional (old value plus the
current step), and repeated increases grow it without bound. -/
theorem claim_C9_increase_unclamped :
    (∀ s : MainState, applyOp s Op.increaseDelay
      = { s with update_delay := s.update_delay + s.change_update_delay }) ∧
    (∀ (s : MainState) (n : Nat), ((fun t => applyOp t Op.increaseDelay)^[n] s).update_delay
      = s.update_delay + n * s.change_update_delay) ∧
    (∀ s : MainState, 0 < s.change_update_delay → ∀ B : Nat,
      ∃ n, B < ((fun t => applyOp t Op.increaseDelay)^[n] s).update_delay) := by
  have hone : ∀ s : MainState, applyOp s Op.increaseDelay
      = { s with update_delay := s.update_delay + s.change_update_delay } := by
    intro s; rfl
  have hiter : ∀ (s : MainState) (n : Nat),
      ((fun t => applyOp t Op.increaseDelay)^[n] s).update_delay
        = s.update_delay + n * s.change_update_delay ∧
      ((fun t => applyOp t Op.increaseDelay)^[n] s).change_update_delay
        = s.change_update_delay := by
    intro s n
    induction n with
    | zero => simp
    | succ n ih =>
        rw [Function.iterate_succ_apply', hone]
        simp only [update_delay_mk, change_update_delay_mk, ih.1, ih.2]
        exact ⟨by ring, by trivial⟩
  refine ⟨hone, fun s n => (hiter s n).1, ?_⟩
  intro s hc B
  refine ⟨B + 1, ?_⟩
  rw [(hiter s (B + 1)).1]
  have h2 : B + 1 ≤ (B + 1) * s.change_update_delay :=
    Nat.le_mul_of_pos_right _ hc
  calc B < B + 1 := Nat.lt_succ_self B
    _ ≤ (B + 1) * s.change_update_delay := h2
    _ ≤ s.update_delay + (B + 1) * s.change_update_delay := Nat.le_add_left _ _

theorem claim_C9_witness :
    0 < MainState.new.change_update_delay ∧
    ∃ n, 1000 < ((fun t => applyOp t Op.increaseDelay)^[n] MainState.new).update_delay :=
  ⟨by decide, claim_C9_increase_unclamped.2.2 MainState.new (by decide) 1000⟩

/-! ## Grid reading lemmas -/

theorem getCell_deadGrid (i j : Nat) : getCell deadGrid i j = false := by
  simp only [getCell, deadGrid, List.getD_eq_getElem?_getD, List.getElem?_replicate]
  split_ifs <;>
    (try simp [List.getD_eq_getElem?_getD, List.getElem?_replicate]) <;>
    (try split_ifs) <;>
    simp

theorem wf_deadGrid : wf deadGrid := by
  constructor
  · simp [deadGrid]
  · intro row hrow
    simp only [deadGrid] at hrow
    rw [List.eq_of_mem_replicate hrow]
    simp

/-- C8: `clear` kills every cell and leaves `paused` and both timing
parameters untouched. -/
theorem claim_C8_clear :
    ∀ s : MainState,
      (s.clear.paused = s.paused ∧
        s.clear.update_delay = s.update_delay ∧
        s.clear.change_update_delay = s.change_update_delay ∧
        s.clear.next_grid = s.next_grid) ∧
      ∀ i j : Nat, i < GRID_HEIGHT → j < GRID_WIDTH → getCell s.clear.grid i j = false := by
  intro s
  refine ⟨⟨rfl, rfl, rfl, rfl⟩, ?_⟩
  intro i j _ _
  exact getCell_deadGrid i j

theorem claim_C8_witness :
    MainState.new.clear.paused = MainState.new.paused ∧
    0 < GRID_HEIGHT ∧ 0 < GRID_WIDTH ∧
    getCell MainState.new.clear.grid 0 0 = false :=
  ⟨(claim_C8_clear MainState.new).1.1, by decide, by decide,
    (claim_C8_clear MainState.new).2 0 0 (by decide) (by decide)⟩

/-! ## A closed form for the neighbor count -/

/-- Contribution of position `(i, j)` to the neighbor count of `(x, y)`:
1 when it is a live, in-width, non-center cell; 0 otherwise. -/
def ncTerm (g : List (List Bool)) (y x i j : Nat) : Nat :=
  if GRID_WIDTH ≤ j ∨ (i = y ∧ j = x) then 0
  else if getCell g i j then 1 else 0

/-- Contribution of row `i` to the neighbor count of `(x, y)`. -/
def ncRow (g : List (List Bool)) (y x i : Nat) : Nat :=
  if GRID_HEIGHT ≤ i then 0
  else ncTerm g y x i (wrapping_sub1 x) + ncTerm g y x i x + ncTerm g y x i (x + 1)

theorem foldl_eq_add_sum {α : Type} (f : Nat → α → Nat) (w : α → Nat)
    (hf : ∀ c a, f c a = c + w a) :
    ∀ (l : List α) (c : Nat), l.foldl f c = c + (l.map w).sum := by
  intro l
  induction l with
  | nil => simp
  | cons a l ih =>
      intro c
      rw [List.foldl_cons, ih, hf]
      simp only [List.map_cons, List.sum_cons]
      omega

set_option maxRecDepth 8000 in
theorem live_neighbor_count_eq (g : List (List Bool)) (x y : Nat) :
    live_neighbor_count g x y =
      ncRow g y x (wrapping_sub1 y) + ncRow g y x y + ncRow g y x (y + 1) := by
  have houter : ∀ (c : Nat) (i : Nat),
      (if GRID_HEIGHT ≤ i then c
        else [wrapping_sub1 x, x, x + 1].foldl (fun count j =>
          if GRID_WIDTH ≤ j ∨ (i = y ∧ j = x) then count
          else if getCell g i j then count + 1 else count) c)
        = c + ncRow g y x i := by
    intro c i
    split_ifs with h
    · simp [ncRow, h]
    · rw [foldl_eq_add_sum _ (fun j => ncTerm g y x i j)
        (by intro c' j; simp only [ncTerm]; split_ifs <;> omega)]
      simp only [List.map_cons, List.map_nil, List.sum_cons, List.sum_nil, ncRow]
      rw [if_neg h]
      omega
  have hdef : live_neighbor_count g x y
      = [wrapping_sub1 y, y, y + 1].foldl (fun count i =>
          if GRID_HEIGHT ≤ i then count
          else [wrapping_sub1 x, x, x + 1].foldl (fun count j =>
            if GRID_WIDTH ≤ j ∨ (i = y ∧ j = x) then count
            else if getCell g i j then count + 1 else count) count) 0 := rfl
  rw [hdef, foldl_eq_add_sum _ (ncRow g y x) houter]
  simp only [List.map_cons, List.map_nil, List.sum_cons, List.sum_nil]
  omega

theorem ncTerm_le_one (g : List (List Bool)) (y x i j : Nat) : ncTerm g y x i j ≤ 1 := by
  unfold ncTerm; split_ifs <;> omega

theorem ncTerm_center (g : List (List Bool)) (y x : Nat) : ncTerm g y x y x = 0 := by
  unfold ncTerm
  rw [if_pos (Or.inr ⟨rfl, rfl⟩)]

theorem ncRow_le_three (g : List (List Bool)) (y x i : Nat) : ncRow g y x i ≤ 3 := by
  unfold ncRow
  split_ifs with h
  · omega
  · have h1 := ncTerm_le_one g y x i (wrapping_sub1 x)
    have h2 := ncTerm_le_one g y x i x
    have h3 := ncTerm_le_one g y x i (x + 1)
    omega

theorem ncRow_center_le_two (g : List (List Bool)) (y x : Nat) : ncRow g y x y ≤ 2 := by
  unfold ncRow
  split_ifs with h
  · omega
  · have h1 := ncTerm_le_one g y x y (wrapping_sub1 x)
    have h2 := ncTerm_center g y x
    have h3 := ncTerm_le_one g y x y (x + 1)
    omega

theorem live_neighbor_count_le_eight (g : List (List Bool)) (x y : Nat) :
    live_neighbor_count g x y ≤ 8 := by
  rw [live_neighbor_count_eq]
  have h1 := ncRow_le_three g y x (wrapping_sub1 y)
  have h2 := ncRow_center_le_two g y x
  have h3 := ncRow_le_three g y x (y + 1)
  omega

theorem live_neighbor_count_congr (g g' : List (List Bool)) (x y : Nat)
    (h : ∀ i j, getCell g i j = getCell g' i j) :
    live_neighbor_count g x y = live_neighbor_count g' x y := by
  simp only [live_neighbor_count_eq, ncRow, ncTerm, h]

theorem live_neighbor_count_eq_zero (g : List (List Bool)) (x y : Nat)
    (h : ∀ i j, (i = wrapping_sub1 y ∨ i = y ∨ i = y + 1) →
      (j = wrapping_sub1 x ∨ j = x ∨ j = x + 1) → getCell g i j = false) :
    live_neighbor_count g x y = 0 := by
  rw [live_neighbor_count_eq]
  have hT : ∀ i j, (i = wrapping_sub1 y ∨ i = y ∨ i = y + 1) →
      (j = wrapping_sub1 x ∨ j = x ∨ j = x + 1) → ncTerm g y x i j = 0 := by
    intro i j hi hj
    unfold ncTerm
    split_ifs with h1 h2
    · rfl
    · rw [h i j hi hj] at h2; exact absurd h2 (by simp)
    · rfl
  have hR : ∀ i, (i = wrapping_sub1 y ∨ i = y ∨ i = y + 1) → ncRow g y x i = 0 := by
    intro i hi
    unfold ncRow
    split_ifs with h1
    · rfl
    · rw [hT i (wrapping_sub1 x) hi (Or.inl rfl), hT i x hi (Or.inr (Or.inl rfl)),
        hT i (x + 1) hi (Or.inr (Or.inr rfl))]
  rw [hR _ (Or.inl rfl), hR _ (Or.inr (Or.inl rfl)), hR _ (Or.inr (Or.inr rfl))]

/-! ## Grids built from a per-cell function -/

/-- `update_grid_pass`, `mkGrid` and `randomize` all build a grid by mapping a
cell function over `range GRID_HEIGHT × range GRID_WIDTH`; this lemma reads
such a grid back. -/
theorem getCell_grid_of_fn (f : Nat → Nat → Bool) {i j : Nat}
    (hi : i < GRID_HEIGHT) (hj : j < GRID_WIDTH) :
    getCell ((List.range GRID_HEIGHT).map fun y =>
      (List.range GRID_WIDTH).map fun x => f y x) i j = f i j := by
  have h1 : ((List.range GRID_HEIGHT).map fun y =>
      (List.range GRID_WIDTH).map fun x => f y x).getD i []
        = (List.range GRID_WIDTH).map fun x => f i x := by
    rw [List.getD_eq_getElem?_getD, List.getElem?_map, List.getElem?_range hi]
    simp only [Option.map_some', Option.getD_some]
  unfold getCell
  rw [h1, List.getD_eq_getElem?_getD, List.getElem?_map, List.getElem?_range hj]
  simp only [Option.map_some', Option.getD_some]

theorem wf_grid_of_fn (f : Nat → Nat → Bool) :
    wf ((List.range GRID_HEIGHT).map fun y =>
      (List.range GRID_WIDTH).map fun x => f y x) := by
  constructor
  · simp
  · intro row hrow
    obtain ⟨y, _, hy⟩ := List.mem_map.mp hrow
    rw [← hy]
    simp

theorem getCell_of_height_le (g : List (List Bool)) (hwf : wf g) {i : Nat} (j : Nat)
    (h : GRID_HEIGHT ≤ i) : getCell g i j = false := by
  have hrow : g.getD i [] = [] := by
    rw [List.getD_eq_getElem?_getD g i [],
      List.getElem?_eq_none (by have h1 := hwf.1; omega)]
    rfl
  unfold getCell
  rw [hrow]
  simp

theorem getCell_of_width_le (g : List (List Bool)) (hwf : wf g) (i : Nat) {j : Nat}
    (h : GRID_WIDTH ≤ j) : getCell g i j = false := by
  unfold getCell
  by_cases hi : i < g.length
  · have hrow : g.getD i [] = g[i] := by
      rw [List.getD_eq_getElem?_getD g i [], List.getElem?_eq_getElem hi]
      rfl
    have hlen : (g[i]).length = GRID_WIDTH := hwf.2 _ (List.getElem_mem hi)
    rw [hrow, List.getD_eq_getElem?_getD, List.getElem?_eq_none (by omega)]
    rfl
  · have hrow : g.getD i [] = [] := by
      rw [List.getD_eq_getElem?_getD g i [], List.getElem?_eq_none (by omega)]
      rfl
    rw [hrow]
    simp

/-- Pointwise reading of the generation pass (C2's core equation). -/
theorem getCell_update_grid_pass (g : List (List Bool)) {y x : Nat}
    (hy : y < GRID_HEIGHT) (hx : x < GRID_WIDTH) :
    getCell (update_grid_pass g) y x
      = newCell (getCell g y x) (live_neighbor_count g x y) :=
  getCell_grid_of_fn _ hy hx

theorem wf_update_grid_pass (g : List (List Bool)) : wf (update_grid_pass g) :=
  wf_grid_of_fn _

theorem newCell_true_iff (b : Bool) (n : Nat) :
    newCell b n = true ↔ ((b = true ∧ (n = 2 ∨ n = 3)) ∨ (b = false ∧ n = 3)) := by
  unfold newCell
  split <;> simp_all

/-- C2: the generation advance is a simultaneous update from the pre-call
grid, and the buffer ends up holding the pre-call grid (the swap). -/
theorem claim_C2_simultaneous_update :
    ∀ (s : MainState) (x y : Nat), x < GRID_WIDTH → y < GRID_HEIGHT →
      (getCell s.update_grid.grid y x = true ↔
        ((getCell s.grid y x = true ∧
            (live_neighbor_count s.grid x y = 2 ∨ live_neighbor_count s.grid x y = 3)) ∨
         (getCell s.grid y x = false ∧ live_neighbor_count s.grid x y = 3))) ∧
      s.update_grid.next_grid = s.grid := by
  intro s x y hx hy
  constructor
  · show getCell (update_grid_pass s.grid) y x = true ↔ _
    rw [getCell_update_grid_pass s.grid hy hx, newCell_true_iff]
  · rfl

theorem claim_C2_witness :
    0 < GRID_WIDTH ∧ 0 < GRID_HEIGHT ∧
    ((getCell MainState.new.update_grid.grid 0 0 = true ↔
        ((getCell MainState.new.grid 0 0 = true ∧
            (live_neighbor_count MainState.new.grid 0 0 = 2 ∨
              live_neighbor_count MainState.new.grid 0 0 = 3)) ∨
         (getCell MainState.new.grid 0 0 = false ∧
            live_neighbor_count MainState.new.grid 0 0 = 3))) ∧
      MainState.new.update_grid.next_grid = MainState.new.grid) :=
  ⟨by decide, by decide, claim_C2_simultaneous_update MainState.new 0 0 (by decide) (by decide)⟩

/-- C7: the all-dead grid is a fixed point of the generation advance. -/
theorem claim_C7_dead_fixed_point :
    ∀ s : MainState, wf s.grid →
      (∀ i j, i < GRID_HEIGHT → j < GRID_WIDTH → getCell s.grid i j = false) →
      ∀ i j, i < GRID_HEIGHT → j < GRID_WIDTH → getCell s.update_grid.grid i j = false := by
  intro s hwf hdead i j hi hj
  have hall : ∀ a b, getCell s.grid a b = false := by
    intro a b
    by_cases h1 : GRID_HEIGHT ≤ a
    · exact getCell_of_height_le s.grid hwf b h1
    · by_cases h2 : GRID_WIDTH ≤ b
      · exact getCell_of_width_le s.grid hwf a h2
      · exact hdead a b (by omega) (by omega)
  show getCell (update_grid_pass s.grid) i j = false
  rw [getCell_update_grid_pass s.grid hi hj,
    live_neighbor_count_eq_zero s.grid j i (fun a b _ _ => hall a b), hall]
  rfl

theorem claim_C7_witness :
    wf MainState.new.clear.grid ∧
    getCell MainState.new.clear.update_grid.grid 0 0 = false :=
  ⟨wf_deadGrid,
    claim_C7_dead_fixed_point MainState.new.clear wf_deadGrid
      (fun i j _ _ => getCell_deadGrid i j) 0 0 (by decide) (by decide)⟩

/-! ## Writing single cells -/

theorem getD_row_length (g : List (List Bool)) (hwf : wf g) {y : Nat}
    (hy : y < GRID_HEIGHT) : (g.getD y []).length = GRID_WIDTH := by
  have hy' : y < g.length := by have h1 := hwf.1; omega
  have hrow : g.getD y [] = g[y] := by
    rw [List.getD_eq_getElem?_getD, List.getElem?_eq_getElem hy']
    rfl
  rw [hrow]
  exact hwf.2 _ (List.getElem_mem hy')

theorem getCell_setCell (g : List (List Bool)) (y x : Nat) (v : Bool)
    (hy : y < g.length) (hx : x < (g.getD y []).length) (i j : Nat) :
    getCell (setCell g y x v) i j = if i = y ∧ j = x then v else getCell g i j := by
  have hx' : x < ((g[y]?).getD []).length := by
    rw [← List.getD_eq_getElem?_getD]
    exact hx
  simp only [getCell, setCell, List.getD_eq_getElem?_getD]
  by_cases hiy : i = y
  · by_cases hjx : j = x
    · rw [if_pos ⟨hiy, hjx⟩]
      subst hiy
      subst hjx
      rw [List.getElem?_set_self hy]
      simp only [Option.getD_some]
      rw [List.getElem?_set_self hx']
      rfl
    · rw [if_neg (by simp [hjx])]
      subst hiy
      rw [List.getElem?_set_self hy]
      simp only [Option.getD_some]
      rw [List.getElem?_set_ne (Ne.symm hjx)]
  · rw [if_neg (by simp [hiy]), List.getElem?_set_ne (fun hh => hiy hh.symm)]

theorem wf_setCell (g : List (List Bool)) (y x : Nat) (v : Bool) (hwf : wf g) :
    wf (setCell g y x v) := by
  constructor
  · simpa [setCell] using hwf.1
  · intro row hrow
    unfold setCell at hrow
    by_cases hy : y < g.length
    · rcases List.mem_or_eq_of_mem_set hrow with hmem | heq
      · exact hwf.2 _ hmem
      · subst heq
        rw [List.length_set]
        have hlenr : (g.getD y []).length = GRID_WIDTH := by
          have hrw : g.getD y [] = g[y] := by
            rw [List.getD_eq_getElem?_getD, List.getElem?_eq_getElem hy]
            rfl
          rw [hrw]
          exact hwf.2 _ (List.getElem_mem hy)
        exact hlenr
    · rw [List.set_eq_of_length_le (by omega)] at hrow
      exact hwf.2 _ hrow

theorem setCell_setCell (g : List (List Bool)) (y x : Nat) (a b : Bool) :
    setCell (setCell g y x a) y x b = setCell g y x b := by
  unfold setCell
  by_cases hy : y < g.length
  · have hrow : (g.set y ((g.getD y []).set x a)).getD y [] = (g.getD y []).set x a := by
      rw [List.getD_eq_getElem?_getD, List.getElem?_set_self (by simpa using hy)]
      rfl
    rw [hrow, List.set_set, List.set_set]
  · have h1 : g.set y ((g.getD y []).set x a) = g := List.set_eq_of_length_le (by omega)
    rw [h1]

theorem set_getD_self {α : Type} (l : List α) (i : Nat) (d : α) (h : i < l.length) :
    l.set i (l.getD i d) = l := by
  apply List.ext_getElem?
  intro n
  by_cases hn : n = i
  · subst hn
    rw [List.getElem?_set_self h, List.getD_eq_getElem?_getD, List.getElem?_eq_getElem h]
    rfl
  · rw [List.getElem?_set_ne (fun hh => hn hh.symm)]

theorem setCell_getCell_self (g : List (List Bool)) (y x : Nat)
    (hy : y < g.length) (hx : x < (g.getD y []).length) :
    setCell g y x (getCell g y x) = g := by
  unfold setCell getCell
  rw [set_getD_self _ _ _ hx, set_getD_self _ _ _ hy]

/-- C6: in-bounds `toggle_cell` flips exactly the addressed cell and is an
involution; out-of-bounds `toggle_cell` changes nothing. -/
theorem claim_C6_toggle_cell :
    (∀ (s : MainState) (x y : Nat), wf s.grid → x < GRID_WIDTH → y < GRID_HEIGHT →
      (∀ i j, getCell (s.toggle_cell x y).grid i j
          = if i = y ∧ j = x then !getCell s.grid y x else getCell s.grid i j) ∧
      (s.toggle_cell x y).toggle_cell x y = s ∧
      (s.toggle_cell x y).paused = s.paused ∧
      (s.toggle_cell x y).next_grid = s.next_grid ∧
      (s.toggle_cell x y).update_delay = s.update_delay ∧
      (s.toggle_cell x y).change_update_delay = s.change_update_delay) ∧
    (∀ (s : MainState) (x y : Nat), GRID_WIDTH ≤ x ∨ GRID_HEIGHT ≤ y →
      s.toggle_cell x y = s) := by
  constructor
  · intro s x y hwf hx hy
    have hylen : y < s.grid.length := by have h1 := hwf.1; omega
    have hxlen : x < (s.grid.getD y []).length := by
      rw [getD_row_length s.grid hwf hy]; omega
    have h1 : s.toggle_cell x y
        = { s with grid := setCell s.grid y x (!getCell s.grid y x) } := by
      unfold MainState.toggle_cell
      rw [if_pos ⟨hx, hy⟩]
    refine ⟨?_, ?_, by rw [h1], by rw [h1], by rw [h1], by rw [h1]⟩
    · intro i j
      rw [h1]
      simp only [grid_mk]
      exact getCell_setCell s.grid y x (!getCell s.grid y x) hylen hxlen i j
    · rw [h1]
      unfold MainState.toggle_cell
      rw [if_pos ⟨hx, hy⟩]
      simp only [grid_mk, next_grid_mk, paused_mk, update_delay_mk, change_update_delay_mk]
      have h3 : getCell (setCell s.grid y x (!getCell s.grid y x)) y x
          = !getCell s.grid y x := by
        rw [getCell_setCell s.grid y x _ hylen hxlen,
          if_pos (show y = y ∧ x = x from ⟨rfl, rfl⟩)]
      rw [h3, Bool.not_not, setCell_setCell, setCell_getCell_self s.grid y x hylen hxlen]
  · intro s x y h
    unfold MainState.toggle_cell
    rw [if_neg (by omega)]

theorem claim_C6_witness :
    wf MainState.new.grid ∧ 0 < GRID_WIDTH ∧ 0 < GRID_HEIGHT ∧
    (MainState.new.toggle_cell 0 0).toggle_cell 0 0 = MainState.new ∧
    (GRID_WIDTH ≤ 200 ∨ GRID_HEIGHT ≤ 0) ∧
    MainState.new.toggle_cell 200 0 = MainState.new :=
  ⟨by decide, by decide, by decide,
    (claim_C6_toggle_cell.1 MainState.new 0 0 (by decide) (by decide) (by decide)).2.1,
    by decide,
    claim_C6_toggle_cell.2 MainState.new 200 0 (by decide)⟩

/-! ## C10: the checked semantics never panics -/

/-- Checked `live_neighbor_count`: every grid read that the loops actually
execute goes through `getCell?`, so the result is `none` exactly when some
executed `self.grid[i][j]` would panic in Rust. -/
def live_neighbor_count? (g : List (List Bool)) (x y : Nat) : Option Nat :=
  let xs := [wrapping_sub1 x, x, x + 1]
  let ys := [wrapping_sub1 y, y, y + 1]
  ys.foldlM (fun count i =>
    if GRID_HEIGHT ≤ i then pure count
    else xs.foldlM (fun count j =>
      if GRID_WIDTH ≤ j ∨ (i = y ∧ j = x) then pure count
      else (getCell? g i j).map fun cell =>
        if cell then count + 1 else count) count) 0

/-- Checked `update_grid` pass: `none` when any cell read of the pre-swap
grid would panic. -/
def update_grid? (g : List (List Bool)) : Option (List (List Bool)) :=
  (List.range GRID_HEIGHT).mapM fun y =>
    (List.range GRID_WIDTH).mapM fun x =>
      (live_neighbor_count? g x y).bind fun live_neighbors =>
        (getCell? g y x).map fun cell => newCell cell live_neighbors

theorem getCell?_eq_some (g : List (List Bool)) (hwf : wf g) {i j : Nat}
    (hi : i < GRID_HEIGHT) (hj : j < GRID_WIDTH) :
    getCell? g i j = some (getCell g i j) := by
  have hi' : i < g.length := by have h1 := hwf.1; omega
  have hlen : (g[i]).length = GRID_WIDTH := hwf.2 _ (List.getElem_mem hi')
  have hrow : g.getD i [] = g[i] := by
    rw [List.getD_eq_getElem?_getD, List.getElem?_eq_getElem hi']
    rfl
  unfold getCell? getCell
  rw [List.get?_eq_getElem?, List.getElem?_eq_getElem hi']
  simp only [Option.some_bind]
  rw [hrow, List.getD_eq_getElem?_getD, List.get?_eq_getElem?,
    List.getElem?_eq_getElem (by omega)]
  rfl

theorem foldlM_eq_some_foldl {α β : Type} (fM : β → α → Option β) (fT : β → α → β)
    (l : List α) (h : ∀ (b : β) (a : α), a ∈ l → fM b a = some (fT b a)) :
    ∀ b : β, l.foldlM fM b = some (l.foldl fT b) := by
  induction l with
  | nil => intro b; rfl
  | cons a l ih =>
      intro b
      rw [List.foldlM_cons, h b a (by simp), List.foldl_cons]
      exact ih (fun b a ha => h b a (by simp [ha])) (fT b a)

theorem mapM_eq_some_map {α β : Type} (fM : α → Option β) (fT : α → β)
    (l : List α) (h : ∀ a ∈ l, fM a = some (fT a)) :
    l.mapM fM = some (l.map fT) := by
  induction l with
  | nil => rfl
  | cons a l ih =>
      rw [List.mapM_cons, h a (by simp), List.map_cons,
        ih (fun a ha => h a (by simp [ha]))]
      rfl

theorem live_neighbor_count?_eq_some (g : List (List Bool)) (hwf : wf g) (x y : Nat) :
    live_neighbor_count? g x y = some (live_neighbor_count g x y) := by
  have hdefM : live_neighbor_count? g x y
      = [wrapping_sub1 y, y, y + 1].foldlM (fun count i =>
          if GRID_HEIGHT ≤ i then pure count
          else [wrapping_sub1 x, x, x + 1].foldlM (fun count j =>
            if GRID_WIDTH ≤ j ∨ (i = y ∧ j = x) then pure count
            else (getCell? g i j).map fun cell =>
              if cell then count + 1 else count) count) 0 := rfl
  have hdefT : live_neighbor_count g x y
      = [wrapping_sub1 y, y, y + 1].foldl (fun count i =>
          if GRID_HEIGHT ≤ i then count
          else [wrapping_sub1 x, x, x + 1].foldl (fun count j =>
            if GRID_WIDTH ≤ j ∨ (i = y ∧ j = x) then count
            else if getCell g i j then count + 1 else count) count) 0 := rfl
  rw [hdefM, hdefT]
  apply foldlM_eq_some_foldl
  intro b i _
  split_ifs with hi
  · rfl
  · apply foldlM_eq_some_foldl
    intro c j _
    split_ifs with hj hcell
    · rfl
    · rw [getCell?_eq_some g hwf (by omega) (by push_neg at hj; exact hj.1),
        Option.map_some']
      simp [hcell]
    · rw [getCell?_eq_some g hwf (by omega) (by push_neg at hj; exact hj.1),
        Option.map_some']
      simp [hcell]

theorem update_grid?_eq_some (g : List (List Bool)) (hwf : wf g) :
    update_grid? g = some (update_grid_pass g) := by
  unfold update_grid? update_grid_pass
  apply mapM_eq_some_map
  intro y hy
  apply mapM_eq_some_map
  intro x hx
  rw [live_neighbor_count?_eq_some g hwf]
  simp only [Option.some_bind]
  rw [getCell?_eq_some g hwf (List.mem_range.mp hy) (List.mem_range.mp hx)]
  rfl

/-- C10: for a well-formed grid the neighbor count only performs in-bounds
reads (it is `some` under the panic-checking semantics) and is at most 8, and
the whole generation pass completes without any out-of-bounds indexing,
producing the unchecked pass's well-formed result. -/
theorem claim_C10_no_out_of_bounds :
    ∀ g : List (List Bool), wf g →
      (∀ x y : Nat, live_neighbor_count? g x y = some (live_neighbor_count g x y) ∧
        live_neighbor_count g x y ≤ 8) ∧
      update_grid? g = some (update_grid_pass g) ∧
      wf (update_grid_pass g) := by
  intro g hwf
  refine ⟨?_, update_grid?_eq_some g hwf, wf_update_grid_pass g⟩
  intro x y
  exact ⟨live_neighbor_count?_eq_some g hwf x y, live_neighbor_count_le_eight g x y⟩

theorem claim_C10_witness :
    wf deadGrid ∧ update_grid? deadGrid = some (update_grid_pass deadGrid) :=
  ⟨wf_deadGrid, (claim_C10_no_out_of_bounds deadGrid wf_deadGrid).2.1⟩

/-! ## C3: the glider advances one diagonal step every four generations -/

/-- The grid whose live cells are exactly the pairs in `cells`. -/
def mkGrid (cells : List (Nat × Nat)) : List (List Bool) :=
  (List.range GRID_HEIGHT).map fun y =>
    (List.range GRID_WIDTH).map fun x => decide ((y, x) ∈ cells)

/-- `g` is a well-formed grid whose live cells are exactly `cells`. -/
def gridIs (g : List (List Bool)) (cells : List (Nat × Nat)) : Prop :=
  wf g ∧ ∀ i j, i < GRID_HEIGHT → j < GRID_WIDTH →
    (getCell g i j = true ↔ (i, j) ∈ cells)

theorem getCell_mkGrid (cells : List (Nat × Nat)) {i j : Nat}
    (hi : i < GRID_HEIGHT) (hj : j < GRID_WIDTH) :
    getCell (mkGrid cells) i j = decide ((i, j) ∈ cells) :=
  getCell_grid_of_fn _ hi hj

theorem wf_mkGrid (cells : List (Nat × Nat)) : wf (mkGrid cells) :=
  wf_grid_of_fn _

theorem getCell_eq_of_gridIs {g : List (List Bool)} {cells : List (Nat × Nat)}
    (hg : gridIs g cells) : ∀ i j, getCell g i j = getCell (mkGrid cells) i j := by
  intro i j
  by_cases hi : i < GRID_HEIGHT
  · by_cases hj : j < GRID_WIDTH
    · rw [getCell_mkGrid cells hi hj]
      by_cases hm : (i, j) ∈ cells
      · rw [(hg.2 i j hi hj).mpr hm, decide_eq_true hm]
      · rw [decide_eq_false hm]
        cases hc : getCell g i j
        · rfl
        · exact absurd ((hg.2 i j hi hj).mp hc) hm
    · rw [getCell_of_width_le g hg.1 i (by omega),
        getCell_of_width_le (mkGrid cells) (wf_mkGrid cells) i (by omega)]
  · rw [getCell_of_height_le g hg.1 j (by omega),
      getCell_of_height_le (mkGrid cells) (wf_mkGrid cells) j (by omega)]

theorem wrapping_sub1_eq {y : Nat} (h1 : 0 < y) (h2 : y < USIZE_MOD) :
    wrapping_sub1 y = y - 1 := by
  unfold wrapping_sub1
  have h3 : y + (USIZE_MOD - 1) = (y - 1) + 1 * USIZE_MOD := by
    have h4 : 0 < USIZE_MOD := by norm_num [USIZE_MOD]
    omega
  rw [h3, Nat.add_mul_mod_self_right, Nat.mod_eq_of_lt (by omega)]

theorem usize_mod_large : (18446744073709551616 : Nat) = USIZE_MOD := by
  norm_num [USIZE_MOD]

/-- In the window argument: cells far from the live window have neighbor
count 0. -/
theorem nc_far_zero (cells : List (Nat × Nat)) (B x y : Nat)
    (hb : ∀ p ∈ cells, p.1 ≤ B ∧ p.2 ≤ B)
    (hfar : B + 1 < y ∨ B + 1 < x) (hy : y < GRID_HEIGHT) (hx : x < GRID_WIDTH) :
    live_neighbor_count (mkGrid cells) x y = 0 := by
  have hmod := usize_mod_large
  have hH : GRID_HEIGHT = 90 := rfl
  have hW : GRID_WIDTH = 120 := rfl
  apply live_neighbor_count_eq_zero
  intro i j hi hj
  by_cases hib : i < GRID_HEIGHT
  · by_cases hjb : j < GRID_WIDTH
    · rw [getCell_mkGrid cells hib hjb]
      apply decide_eq_false
      intro hm
      have hp := hb _ hm
      simp only at hp
      rcases hfar with hfy | hfx
      · have hiB : B < i := by
          rcases hi with hi1 | hi2 | hi3
          · rw [wrapping_sub1_eq (by omega) (by omega)] at hi1
            omega
          · omega
          · omega
        omega
      · have hjB : B < j := by
          rcases hj with hj1 | hj2 | hj3
          · rw [wrapping_sub1_eq (by omega) (by omega)] at hj1
            omega
          · omega
          · omega
        omega
    · exact getCell_of_width_le _ (wf_mkGrid cells) _ (by omega)
  · exact getCell_of_height_le _ (wf_mkGrid cells) _ (by omega)

/-- One generation, restricted to a window: if the live cells of `g` are
`cells`, all within the `B`-box, and the per-cell rule on the `(B+1)`-window
produces exactly `cells'`, then the live cells of the pass are exactly
`cells'`. -/
theorem gridIs_update (g : List (List Bool)) (cells cells' : List (Nat × Nat)) (B : Nat)
    (hg : gridIs g cells)
    (hb : ∀ p ∈ cells, p.1 ≤ B ∧ p.2 ≤ B)
    (hb' : ∀ p ∈ cells', p.1 ≤ B + 1 ∧ p.2 ≤ B + 1)
    (hB1 : B + 2 < GRID_HEIGHT) (hB2 : B + 2 < GRID_WIDTH)
    (hpt : ∀ y, y ≤ B + 1 → ∀ x, x ≤ B + 1 →
      (newCell (getCell (mkGrid cells) y x) (live_neighbor_count (mkGrid cells) x y) = true
        ↔ (y, x) ∈ cells')) :
    gridIs (update_grid_pass g) cells' := by
  have hagree := getCell_eq_of_gridIs hg
  refine ⟨wf_update_grid_pass g, ?_⟩
  intro i j hi hj
  rw [getCell_update_grid_pass g hi hj, hagree,
    live_neighbor_count_congr g (mkGrid cells) j i hagree]
  by_cases hwin : i ≤ B + 1 ∧ j ≤ B + 1
  · exact hpt i hwin.1 j hwin.2
  · have hfar : B + 1 < i ∨ B + 1 < j := by omega
    rw [nc_far_zero cells B j i hb hfar hi hj]
    have hc : getCell (mkGrid cells) i j = false := by
      rw [getCell_mkGrid cells hi hj]
      apply decide_eq_false
      intro hm
      have hp := hb _ hm
      simp only at hp
      omega
    rw [hc]
    exact iff_of_false (by simp [newCell])
      (fun hm => by have hp := hb' _ hm; simp only at hp; omega)

/-- The five glider seed cells of `MainState::new`, as `(row, column)`. -/
def seedCells : List (Nat × Nat) := [(1, 2), (2, 3), (3, 1), (3, 2), (3, 3)]

def gen1Cells : List (Nat × Nat) := [(2, 1), (2, 3), (3, 2), (3, 3), (4, 2)]

def gen2Cells : List (Nat × Nat) := [(2, 3), (3, 1), (3, 3), (4, 2), (4, 3)]

def gen3Cells : List (Nat × Nat) := [(2, 2), (3, 3), (3, 4), (4, 2), (4, 3)]

def gen4Cells : List (Nat × Nat) := [(2, 3), (3, 4), (4, 2), (4, 3), (4, 4)]

theorem gridIs_new : gridIs MainState.new.grid seedCells := by
  constructor
  · decide
  · intro i j hi hj
    have w0 : wf deadGrid := wf_deadGrid
    have w1 : wf (setCell deadGrid 1 2 true) := wf_setCell _ _ _ _ w0
    have w2 : wf (setCell (setCell deadGrid 1 2 true) 2 3 true) := wf_setCell _ _ _ _ w1
    have w3 : wf (setCell (setCell (setCell deadGrid 1 2 true) 2 3 true) 3 1 true) :=
      wf_setCell _ _ _ _ w2
    have w4 : wf (setCell (setCell (setCell (setCell deadGrid 1 2 true) 2 3 true)
        3 1 true) 3 2 true) := wf_setCell _ _ _ _ w3
    show getCell (setCell (setCell (setCell (setCell (setCell deadGrid 1 2 true)
      2 3 true) 3 1 true) 3 2 true) 3 3 true) i j = true ↔ (i, j) ∈ seedCells
    rw [getCell_setCell _ 3 3 true (by rw [w4.1]; decide)
        (by rw [getD_row_length _ w4 (by decide)]; decide),
      getCell_setCell _ 3 2 true (by rw [w3.1]; decide)
        (by rw [getD_row_length _ w3 (by decide)]; decide),
      getCell_setCell _ 3 1 true (by rw [w2.1]; decide)
        (by rw [getD_row_length _ w2 (by decide)]; decide),
      getCell_setCell _ 2 3 true (by rw [w1.1]; decide)
        (by rw [getD_row_length _ w1 (by decide)]; decide),
      getCell_setCell _ 1 2 true (by rw [w0.1]; decide)
        (by rw [getD_row_length _ w0 (by decide)]; decide),
      getCell_deadGrid]
    simp only [seedCells, List.mem_cons, List.not_mem_nil, or_false, Prod.mk.injEq]
    split_ifs <;> simp_all

theorem gridIs_gen1 : gridIs (update_grid_pass MainState.new.grid) gen1Cells :=
  gridIs_update _ seedCells gen1Cells 5 gridIs_new (by decide) (by decide)
    (by decide) (by decide) (by decide)

theorem gridIs_gen2 :
    gridIs (update_grid_pass (update_grid_pass MainState.new.grid)) gen2Cells :=
  gridIs_update _ gen1Cells gen2Cells 5 gridIs_gen1 (by decide) (by decide)
    (by decide) (by decide) (by decide)

theorem gridIs_gen3 :
    gridIs (update_grid_pass (update_grid_pass (update_grid_pass MainState.new.grid)))
      gen3Cells :=
  gridIs_update _ gen2Cells gen3Cells 5 gridIs_gen2 (by decide) (by decide)
    (by decide) (by decide) (by decide)

theorem gridIs_gen4 :
    gridIs (update_grid_pass (update_grid_pass (update_grid_pass
      (update_grid_pass MainState.new.grid)))) gen4Cells :=
  gridIs_update _ gen3Cells gen4Cells 5 gridIs_gen3 (by decide) (by decide)
    (by decide) (by decide) (by decide)

/-- C3: four generations from the constructed initial state leave exactly the
five seed cells, each translated by `(+1, +1)`. -/
theorem claim_C3_glider_period_four :
    ∀ i j, i < GRID_HEIGHT → j < GRID_WIDTH →
      (getCell ((MainState.update_grid^[4]) MainState.new).grid i j = true ↔
        (i, j) ∈ seedCells.map fun p => (p.1 + 1, p.2 + 1)) := by
  intro i j hi hj
  have hg4 : ((MainState.update_grid^[4]) MainState.new).grid
      = update_grid_pass (update_grid_pass (update_grid_pass
          (update_grid_pass MainState.new.grid))) := rfl
  have hmap : (seedCells.map fun p => (p.1 + 1, p.2 + 1)) = gen4Cells := rfl
  rw [hg4, hmap]
  exact gridIs_gen4.2 i j hi hj

theorem claim_C3_witness :
    2 < GRID_HEIGHT ∧ 3 < GRID_WIDTH ∧
    (getCell ((MainState.update_grid^[4]) MainState.new).grid 2 3 = true ↔
      (2, 3) ∈ seedCells.map fun p => (p.1 + 1, p.2 + 1)) :=
  ⟨by decide, by decide, claim_C3_glider_period_four 2 3 (by decide) (by decide)⟩

/-! ## C1: the neighbor count does not wrap toroidally -/

/-- C1 (code behaviour at the failing input): with the single live cell
`(x, y) = (0, 5)`, the neighbor count of the cell `(GRID_WIDTH - 1, 5)` is 0:
the live cell at column 0 does **not** contribute to the count of the cell at
column `GRID_WIDTH - 1`, contradicting the claimed toroidal wraparound. -/
theorem claim_C1_no_wraparound :
    getCell (setCell deadGrid 5 0 true) 5 0 = true ∧
    live_neighbor_count (setCell deadGrid 5 0 true) (GRID_WIDTH - 1) 5 = 0 := by
  constructor
  · decide
  · decide

end Krida
